import Mathlib

/-!
Shallow embedding of the booking-availability logic of the Service-booking
repository, together with theorems settling the frozen claims about it.

The embedded functions follow the source:
  - `getDayOfWeek`, `getTimeSlots`, `checkDateAvailability` from
    src/src/pages/BookingForm.tsx;
  - `updateAllWorkingHours` from the settings controller (src/unnamed/part_016);
  - the off-duty containment query of `createBooking` (src/unnamed/part_015).

Modelling decisions:
  - Calendar dates are day ordinals (`Nat`), with day 0 a Sunday; the source
    normalizes `Date` values to midnight before comparing, so a date is just
    a day number, and JavaScript's `Date.getDay()` becomes `ordinal % 7`.
  - Times of day are the source's `"HH:MM"` strings; `parseTimeToMinutes`
    models `s.split(':').map(Number)` followed by `h * 60 + m`, and
    `formatSlot` models the `padStart(2, '0')` formatting of a slot.
  - The `new Date()` reads in `getTimeSlots` (today's date and the current
    time of day) are passed in as the explicit parameters `todayDate` and
    `nowMinutes`, the standard embedding of an ambient-time read.
  - The `for (let minutes = start; minutes < end; minutes += 30)` loop is
    embedded as the candidate list `slotCandidates` (all values
    `start + 30*i` below `end`, in iteration order) filtered by the loop
    body's `continue`/push conditions, preserving order and multiplicity.
-/

inductive DayOfWeek where
  | sunday | monday | tuesday | wednesday | thursday | friday | saturday
deriving DecidableEq

/-- The `days` array of `getDayOfWeek` in BookingForm.tsx:
`['sunday','monday','tuesday','wednesday','thursday','friday','saturday']`. -/
def dayNames : List DayOfWeek :=
  [.sunday, .monday, .tuesday, .wednesday, .thursday, .friday, .saturday]

/-- `getDayOfWeek` of BookingForm.tsx: map the date to `days[date.getDay()]`.
With dates as day ordinals (day 0 a Sunday), `getDay()` is `date % 7`.
The source returns `null` only for the empty date string, a case that does
not arise for a well-formed date value. -/
def getDayOfWeek (date : Nat) : DayOfWeek :=
  dayNames.getD (date % 7) .sunday

/-- A weekly working-hours entry (the `WorkingHours` record of the source):
day of week, `"HH:MM"` start and end times, and the working-day flag. -/
structure WorkingHours where
  dayOfWeek : DayOfWeek
  startTime : String
  endTime : String
  isWorkingDay : Bool
deriving DecidableEq

/-- An off-duty period: midnight-normalized date bounds and a reason. -/
structure OffDutyPeriod where
  startDate : Nat
  endDate : Nat
  reason : String
deriving DecidableEq

/-- The booking-policy settings: daily cap and inter-booking buffer. -/
structure BookingSettings where
  maxBookingsPerDay : Nat
  timeBufferMinutes : Nat
deriving DecidableEq

/-- A booking as the availability code sees it: its calendar date, its
`"HH:MM"` time, and its status string. -/
structure Booking where
  date : Nat
  time : String
  status : String
deriving DecidableEq

/-- Split a character list at every occurrence of `sep` (the semantics of
JavaScript `s.split(sep)` for a one-character separator); `acc` holds the
current field in reverse. -/
def splitFields (sep : Char) : List Char → List Char → List (List Char)
  | [], acc => [acc.reverse]
  | c :: cs, acc =>
    if c = sep then acc.reverse :: splitFields sep cs []
    else splitFields sep cs (c :: acc)

/-- `Number` on a decimal-digit field, as produced for the source's
well-formed `"HH"`/`"MM"` components. -/
def numberOfDigits (cs : List Char) : Nat :=
  cs.foldl (fun n c => n * 10 + (c.toNat - 48)) 0

/-- `s.split(':').map(Number)` followed by `hours * 60 + minutes`, for a
well-formed `"HH:MM"` string (the only shape the source stores). -/
def parseTimeToMinutes (s : String) : Nat :=
  match (splitFields ':' s.toList []).map numberOfDigits with
  | h :: m :: _ => h * 60 + m
  | [h] => h * 60
  | [] => 0

/-- `n.toString().padStart(2, '0')`. -/
def pad2 (n : Nat) : String :=
  if n < 10 then "0" ++ toString n else toString n

/-- The slot formatting of `getTimeSlots`: hour and minute of the
minutes-since-midnight value, each zero-padded to two digits. -/
def formatSlot (minutes : Nat) : String :=
  pad2 (minutes / 60) ++ ":" ++ pad2 (minutes % 60)

/-- `Math.abs(a - b)` on minute values. -/
def absDiff (a b : Nat) : Nat := max a b - min a b

/-- The loop body's buffer check: `bookedTimeSlots.every(bookedTime =>
Math.abs(minutes - bookedTime) >= timeBufferMinutes)`. -/
def isSlotAvailable (minutes : Nat) (booked : List Nat) (buffer : Nat) : Bool :=
  booked.all (fun bookedTime => decide (buffer ≤ absDiff minutes bookedTime))

/-- The values visited by `for (let minutes = startTimeInMinutes;
minutes < endTimeInMinutes; minutes += 30)`, in iteration order: every
`startM + 30*i` strictly below `endM`. -/
def slotCandidates (startM endM : Nat) : List Nat :=
  (List.range ((endM - startM + 29) / 30)).map (fun i => startM + 30 * i)

/-- The slot loop of `getTimeSlots`: a candidate is skipped (`continue`)
when the booking is for today and the slot is not strictly in the future,
and kept only when the buffer check passes. -/
def availableMinutes (startM endM : Nat) (isToday : Bool) (currentM : Nat)
    (booked : List Nat) (buffer : Nat) : List Nat :=
  (slotCandidates startM endM).filter
    (fun m => !(isToday && decide (m ≤ currentM)) && isSlotAvailable m booked buffer)

/-- The slot computation of `getTimeSlots` for a given day's working hours:
parse the bounds, determine whether the booking is for today (in which case
the current time of day is live, else it stays `0`), map the existing
bookings to minute values, and run the slot loop. -/
def slotMinutes (date : Nat) (dayHours : WorkingHours) (existingBookings : List Booking)
    (settings : BookingSettings) (todayDate nowMinutes : Nat) : List Nat :=
  let startTimeInMinutes := parseTimeToMinutes dayHours.startTime
  let endTimeInMinutes := parseTimeToMinutes dayHours.endTime
  let isToday := date == todayDate
  let currentTimeInMinutes := if isToday then nowMinutes else 0
  let bookedTimeSlots := existingBookings.map (fun b => parseTimeToMinutes b.time)
  availableMinutes startTimeInMinutes endTimeInMinutes isToday currentTimeInMinutes
    bookedTimeSlots settings.timeBufferMinutes

/-- `getTimeSlots` of BookingForm.tsx: look up the working hours for the
date's weekday; return `[]` when the entry is missing, the day is not a
working day, or the daily booking limit was reached; otherwise emit the
surviving slots formatted as `"HH:MM"`. -/
def getTimeSlots (date : Nat) (workingHours : List WorkingHours)
    (dailyBookingLimitReached : Bool) (existingBookings : List Booking)
    (settings : BookingSettings) (todayDate nowMinutes : Nat) : List String :=
  match workingHours.find? (fun h => h.dayOfWeek == getDayOfWeek date) with
  | none => []
  | some dayHours =>
    if !dayHours.isWorkingDay then []
    else if dailyBookingLimitReached then []
    else (slotMinutes date dayHours existingBookings settings todayDate nowMinutes).map formatSlot

/-- The date filter of `checkDateAvailability`:
`bookings.filter(booking => booking.date.split('T')[0] === formattedDate)`,
a filter on the calendar date alone. -/
def bookingsOnDate (allBookings : List Booking) (date : Nat) : List Booking :=
  allBookings.filter (fun b => b.date == date)

/-- The distinct blocking outcomes of `checkDateAvailability`: the
non-working-day message, an off-duty period's reason, and the
daily-limit message. -/
inductive BlockingReason where
  | notWorkingDay
  | offDuty (reason : String)
  | dailyLimitReached
deriving DecidableEq

/-- The off-duty containment test used by both the booking form and the
server: `period.startDate <= date && date <= period.endDate` on
midnight-normalized values. -/
def offDutyContains (date : Nat) (p : OffDutyPeriod) : Bool :=
  decide (p.startDate ≤ date) && decide (date ≤ p.endDate)

/-- `checkDateAvailability` of BookingForm.tsx: in order, the working-day
check, the off-duty loop (first matching period wins), then the fetch of
the date's bookings and the daily-cap comparison. Returns the blocking
reason (if any) together with the date's booking list the later slot
computation will see. -/
def checkDateAvailability (date : Nat) (workingHours : List WorkingHours)
    (offDutyPeriods : List OffDutyPeriod) (settings : BookingSettings)
    (allBookings : List Booking) : Option BlockingReason × List Booking :=
  match workingHours.find? (fun h => h.dayOfWeek == getDayOfWeek date) with
  | none => (some .notWorkingDay, [])
  | some dayHours =>
    if !dayHours.isWorkingDay then (some .notWorkingDay, [])
    else
      match offDutyPeriods.find? (offDutyContains date) with
      | some period => (some (.offDuty period.reason), [])
      | none =>
        let onDate := bookingsOnDate allBookings date
        if settings.maxBookingsPerDay ≤ onDate.length
        then (some .dailyLimitReached, onDate)
        else (none, onDate)

/-- The availability result: bookability flag, optional blocking reason,
and the ordered slot list. -/
structure AvailabilityResult where
  isBookableDay : Bool
  blockingReason : Option BlockingReason
  availableSlots : List String
deriving DecidableEq

/-- The full availability computation as the booking form performs it:
`checkDateAvailability` first (any blocking reason yields an empty slot
list), then `getTimeSlots` over the date's bookings. The source's ambient
`new Date()` reads are the explicit `todayDate`/`nowMinutes` parameters. -/
def computeAvailability (date : Nat) (workingHours : List WorkingHours)
    (offDutyPeriods : List OffDutyPeriod) (settings : BookingSettings)
    (allBookings : List Booking) (todayDate nowMinutes : Nat) : AvailabilityResult :=
  match checkDateAvailability date workingHours offDutyPeriods settings allBookings with
  | (some reason, _) => ⟨false, some reason, []⟩
  | (none, onDate) =>
    ⟨true, none, getTimeSlots date workingHours false onDate settings todayDate nowMinutes⟩

/-- The off-duty gate of `createBooking` (server side): query the periods
containing the midnight-normalized date and block on the first one
(`offDutyPeriods[0]`). -/
def createBookingOffDutyCheck (offDutyPeriods : List OffDutyPeriod) (date : Nat) :
    Option OffDutyPeriod :=
  ((offDutyPeriods.filter (offDutyContains date))).head?

/-- A working-hours entry as received in the bulk-update request body:
each field may be absent (`none`), as for any JSON payload. -/
structure WHPayloadEntry where
  dayOfWeek : Option String
  startTime : Option String
  endTime : Option String
  isWorkingDay : Option Bool
deriving DecidableEq

/-- JavaScript falsiness of an optional string field (`!entry.field`):
true when the field is absent or the empty string. -/
def falsyStr (s : Option String) : Bool :=
  match s with
  | none => true
  | some v => decide (v = "")

/-- The per-entry validation of `updateAllWorkingHours`:
`!entry.dayOfWeek || !entry.startTime || !entry.endTime === undefined ||
entry.isWorkingDay === undefined`. The third disjunct compares a boolean
to `undefined` and is therefore constant `false` in the source; it is
embedded as the literal `false`. -/
def entryInvalid (e : WHPayloadEntry) : Bool :=
  falsyStr e.dayOfWeek || falsyStr e.startTime || false || e.isWorkingDay.isNone

/-- Mongoose `required: true` on a string path: fails when the field is
absent or the empty string. -/
def requiredStr (s : Option String) : Bool :=
  !(falsyStr s)

/-- The schema's `match: /^([01]\d|2[0-3]):([0-5]\d)$/` time-format
validator on a present value (the `match` validator skips absent values;
`required` catches those). -/
def timeFormatValid (s : Option String) : Bool :=
  match s with
  | none => true
  | some v =>
    match v.toList with
    | [h1, h2, c, m1, m2] =>
      ((h1 == '0' || h1 == '1') && h2.isDigit ||
        (h1 == '2' && decide ('0' ≤ h2) && decide (h2 ≤ '3')))
      && c == ':' && decide ('0' ≤ m1) && decide (m1 ≤ '5') && m2.isDigit
    | _ => false

/-- The schema's `enum` validator on `dayOfWeek` for a present value. -/
def dayEnumValid (s : Option String) : Bool :=
  match s with
  | none => true
  | some v =>
    ["monday", "tuesday", "wednesday", "thursday", "friday", "saturday",
     "sunday"].contains v

/-- Document validation against the `workingHoursSchema`: `dayOfWeek`
required and in the weekday enum, `startTime` and `endTime` required and
matching the `HH:MM` pattern. `isWorkingDay` is required with
`default: true`, so an absent value receives the default and the schema
never rejects it. -/
def schemaValid (e : WHPayloadEntry) : Bool :=
  requiredStr e.dayOfWeek && dayEnumValid e.dayOfWeek
    && requiredStr e.startTime && timeFormatValid e.startTime
    && requiredStr e.endTime && timeFormatValid e.endTime

/-- The server-side ordered insert of `insertMany` into the emptied
collection: documents are written one at a time and the unique index on
`dayOfWeek` stops the operation at the first duplicate, leaving the
documents inserted so far in place (`docs` accumulates them in order). -/
def insertOrdered : List WHPayloadEntry → List WHPayloadEntry →
    List WHPayloadEntry × Bool
  | [], docs => (docs, true)
  | e :: rest, docs =>
    if docs.any (fun d => d.dayOfWeek == e.dayOfWeek) then (docs, false)
    else insertOrdered rest (docs ++ [e])

/-- `updateAllWorkingHours` of the settings controller: reject with 400
unless the body is an array of exactly 7 entries and every entry passes
the controller's field check; otherwise `deleteMany({})` wipes the stored
collection and `insertMany(workingHoursData)` inserts the payload. The
two writes are separate awaits with no transaction: when a document fails
schema validation, `insertMany` (ordered, the default) rejects before
writing anything and the store stays empty; when the unique `dayOfWeek`
index rejects a document server-side, the documents inserted before it
remain. Either error reaches the controller's catch, a 500. Returns the
stored collection after the call and the HTTP status. -/
def updateAllWorkingHours (stored payload : List WHPayloadEntry) :
    List WHPayloadEntry × Nat :=
  if payload.length ≠ 7 then (stored, 400)
  else if payload.any entryInvalid then (stored, 400)
  else if payload.all schemaValid then
    let inserted := insertOrdered payload []
    if inserted.2 then (inserted.1, 200) else (inserted.1, 500)
  else ([], 500)

lemma mem_slotCandidates (startM endM m : Nat) :
    m ∈ slotCandidates startM endM ↔ ∃ i, m = startM + 30 * i ∧ m < endM := by
  simp only [slotCandidates, List.mem_map, List.mem_range]
  constructor
  · rintro ⟨i, hi, rfl⟩
    exact ⟨i, rfl, by omega⟩
  · rintro ⟨i, rfl, hm⟩
    exact ⟨i, by omega, rfl⟩

lemma isSlotAvailable_eq_false_iff (m : Nat) (booked : List Nat) (buffer : Nat) :
    isSlotAvailable m booked buffer = false ↔
      ∃ bookedTime ∈ booked, absDiff m bookedTime < buffer := by
  simp [isSlotAvailable, List.all_eq_true]

lemma mem_availableMinutes (startM endM : Nat) (isToday : Bool) (currentM : Nat)
    (booked : List Nat) (buffer : Nat) (m : Nat) :
    m ∈ availableMinutes startM endM isToday currentM booked buffer ↔
      m ∈ slotCandidates startM endM ∧
        (isToday = true → currentM < m) ∧
        isSlotAvailable m booked buffer = true := by
  cases isToday <;> simp [availableMinutes, List.mem_filter, Nat.lt_iff_add_one_le]

lemma head?_filter_eq_find? {α : Type} (p : α → Bool) (l : List α) :
    (l.filter p).head? = l.find? p := by
  induction l with
  | nil => rfl
  | cons a l ih =>
    by_cases h : p a = true
    · simp [List.filter_cons, List.find?_cons, h]
    · simp only [Bool.not_eq_true] at h
      simp [List.filter_cons, List.find?_cons, h, ih]

/-- Claim C1: for a working day 09:00–17:00, no existing bookings, buffer 0
and a date other than today, `getTimeSlots` returns exactly the sixteen
slots 09:00, 09:30, ..., 16:30; candidates start at the day's start time in
minutes, step by 30 minutes, and comprise every value strictly below the end
time, in strictly ascending order (hence without duplicates). -/
theorem c1_slot_generation (date todayDate nowMinutes : Nat)
    (h : date ≠ todayDate) :
    getTimeSlots date [⟨getDayOfWeek date, "09:00", "17:00", true⟩] false []
        ⟨10, 0⟩ todayDate nowMinutes =
      ["09:00", "09:30", "10:00", "10:30", "11:00", "11:30", "12:00", "12:30",
       "13:00", "13:30", "14:00", "14:30", "15:00", "15:30", "16:00", "16:30"]
    ∧ (∀ startM endM m,
        m ∈ slotCandidates startM endM ↔ ∃ i, m = startM + 30 * i ∧ m < endM)
    ∧ (∀ startM endM, (slotCandidates startM endM).Pairwise (· < ·)) := by
  refine ⟨?_, fun startM endM m => mem_slotCandidates startM endM m, ?_⟩
  · have hbeq : (date == todayDate) = false := by
      simpa using h
    simp [getTimeSlots, slotMinutes, hbeq]
    decide
  · intro startM endM
    have hr : (List.range ((endM - startM + 29) / 30)).Pairwise (· < ·) :=
      List.pairwise_lt_range _
    exact hr.map _ (fun a b hab => by omega)

/-- Claim C2: the buffer filter rejects a candidate exactly when some
existing booking lies strictly closer than the buffer (a distance exactly
equal to the buffer is retained), it checks every existing booking, and in
the 09:00–17:00 day with one booking at 12:00 and buffer 60 the slots 11:30,
12:00 and 12:30 are gone while 11:00 and 13:00 survive — indeed every
minute value from 11:30 through 12:30 inclusive is rejected. -/
theorem c2_buffer_filtering (date todayDate nowMinutes : Nat)
    (h : date ≠ todayDate) :
    (∀ m booked buffer, isSlotAvailable m booked buffer = false ↔
        ∃ bookedTime ∈ booked, absDiff m bookedTime < buffer)
    ∧ (∀ m bookedTime buffer, absDiff m bookedTime = buffer →
        isSlotAvailable m [bookedTime] buffer = true)
    ∧ (∀ m, 690 ≤ m → m ≤ 750 → isSlotAvailable m [720] 60 = false)
    ∧ isSlotAvailable 660 [720] 60 = true
    ∧ isSlotAvailable 780 [720] 60 = true
    ∧ getTimeSlots date [⟨getDayOfWeek date, "09:00", "17:00", true⟩] false
        [⟨date, "12:00", "pending"⟩] ⟨10, 60⟩ todayDate nowMinutes =
      ["09:00", "09:30", "10:00", "10:30", "11:00",
       "13:00", "13:30", "14:00", "14:30", "15:00", "15:30", "16:00", "16:30"] := by
  refine ⟨fun m booked buffer => isSlotAvailable_eq_false_iff m booked buffer,
    ?_, ?_, by decide, by decide, ?_⟩
  · intro m bookedTime buffer hdiff
    simp [isSlotAvailable, hdiff]
  · intro m h1 h2
    simp only [isSlotAvailable, List.all_cons, List.all_nil, Bool.and_true,
      decide_eq_false_iff_not, not_le, absDiff]
    omega
  · have hbeq : (date == todayDate) = false := by
      simpa using h
    simp [getTimeSlots, slotMinutes, hbeq]
    decide

/-- Claim C3: on a working, non-off-duty date, once the number of bookings
on the date reaches `maxBookingsPerDay` the result is blocked with the
daily-limit reason and an empty slot list; and the cap flag short-circuits
`getTimeSlots` before slot generation, so no slot is offered at all. -/
theorem c3_daily_cap (date todayDate nowMinutes : Nat) (workingHours : List WorkingHours)
    (offDutyPeriods : List OffDutyPeriod) (settings : BookingSettings)
    (allBookings : List Booking) (dayHours : WorkingHours)
    (hfind : workingHours.find? (fun e => e.dayOfWeek == getDayOfWeek date) = some dayHours)
    (hwork : dayHours.isWorkingDay = true)
    (hoff : offDutyPeriods.find? (offDutyContains date) = none)
    (hcap : settings.maxBookingsPerDay ≤ (bookingsOnDate allBookings date).length) :
    computeAvailability date workingHours offDutyPeriods settings allBookings
        todayDate nowMinutes = ⟨false, some .dailyLimitReached, []⟩
    ∧ getTimeSlots date workingHours true allBookings settings todayDate nowMinutes = [] := by
  constructor
  · simp [computeAvailability, checkDateAvailability, hfind, hwork, hoff, hcap]
  · simp [getTimeSlots, hfind, hwork]

theorem c3_daily_cap_witness :
    computeAvailability 1 [⟨.monday, "09:00", "17:00", true⟩] [] ⟨1, 60⟩
        [⟨1, "10:00", "pending"⟩] 0 0 = ⟨false, some .dailyLimitReached, []⟩ :=
  (c3_daily_cap 1 0 0 [⟨.monday, "09:00", "17:00", true⟩] [] ⟨1, 60⟩
    [⟨1, "10:00", "pending"⟩] ⟨.monday, "09:00", "17:00", true⟩
    (by decide) (by decide) (by decide) (by decide)).1

/-- Claim C4: when the date's weekday either has no working-hours entry or
has one with `isWorkingDay = false`, the availability result is blocked as
"not a working day" with an empty slot list, whatever the off-duty periods
and bookings are; a missing entry behaves like a non-working day rather
than an error, and `getTimeSlots` likewise returns the empty list. -/
theorem c4_not_working_day (date todayDate nowMinutes : Nat)
    (workingHours : List WorkingHours) (offDutyPeriods : List OffDutyPeriod)
    (settings : BookingSettings) (allBookings : List Booking) (limitFlag : Bool)
    (h : workingHours.find? (fun e => e.dayOfWeek == getDayOfWeek date) = none
        ∨ ∃ dayHours,
            workingHours.find? (fun e => e.dayOfWeek == getDayOfWeek date) = some dayHours
            ∧ dayHours.isWorkingDay = false) :
    computeAvailability date workingHours offDutyPeriods settings allBookings
        todayDate nowMinutes = ⟨false, some .notWorkingDay, []⟩
    ∧ getTimeSlots date workingHours limitFlag allBookings settings
        todayDate nowMinutes = [] := by
  rcases h with h | ⟨dayHours, hfind, hw⟩
  · constructor <;> simp [computeAvailability, checkDateAvailability, getTimeSlots, h]
  · constructor <;>
      simp [computeAvailability, checkDateAvailability, getTimeSlots, hfind, hw]

theorem c4_not_working_day_witness :
    computeAvailability 2 [] [⟨0, 5, "Holiday"⟩] ⟨10, 60⟩ [⟨2, "10:00", "pending"⟩] 0 0 =
      ⟨false, some .notWorkingDay, []⟩ :=
  (c4_not_working_day 2 0 0 [] [⟨0, 5, "Holiday"⟩] ⟨10, 60⟩ [⟨2, "10:00", "pending"⟩]
    false (Or.inl (by decide))).1

/-- Claim C5: on a working weekday, a date lying inside some off-duty
period (bounds inclusive, midnight-normalized) is blocked with the reason
of the first matching period in list order and an empty slot list; the
server-side `createBooking` gate selects the same first matching period. -/
theorem c5_off_duty_blocking (date todayDate nowMinutes : Nat)
    (workingHours : List WorkingHours) (offDutyPeriods : List OffDutyPeriod)
    (settings : BookingSettings) (allBookings : List Booking)
    (dayHours : WorkingHours) (period : OffDutyPeriod)
    (hfind : workingHours.find? (fun e => e.dayOfWeek == getDayOfWeek date) = some dayHours)
    (hwork : dayHours.isWorkingDay = true)
    (hoff : offDutyPeriods.find? (offDutyContains date) = some period) :
    computeAvailability date workingHours offDutyPeriods settings allBookings
        todayDate nowMinutes = ⟨false, some (.offDuty period.reason), []⟩
    ∧ period.startDate ≤ date ∧ date ≤ period.endDate
    ∧ createBookingOffDutyCheck offDutyPeriods date = some period := by
  have hcontains := List.find?_some hoff
  simp only [offDutyContains, Bool.and_eq_true, decide_eq_true_eq] at hcontains
  refine ⟨?_, hcontains.1, hcontains.2, ?_⟩
  · simp [computeAvailability, checkDateAvailability, hfind, hwork, hoff]
  · rw [createBookingOffDutyCheck, head?_filter_eq_find?, hoff]

theorem c5_off_duty_blocking_witness :
    computeAvailability 1 [⟨.monday, "09:00", "17:00", true⟩] [⟨0, 3, "Vacation"⟩]
        ⟨10, 60⟩ [] 0 0 = ⟨false, some (.offDuty "Vacation"), []⟩ :=
  (c5_off_duty_blocking 1 0 0 [⟨.monday, "09:00", "17:00", true⟩] [⟨0, 3, "Vacation"⟩]
    ⟨10, 60⟩ [] ⟨.monday, "09:00", "17:00", true⟩ ⟨0, 3, "Vacation"⟩
    (by decide) (by decide) (by decide)).1

/-- Claim C6: when the requested date is today, every candidate at or
before the current minute is excluded from the slot computation (equality
included); when the date is not today, membership is decided by candidacy
and the buffer check alone, so the past-time rule excludes nothing; and
for a found working entry `getTimeSlots` is exactly the formatted slot
computation. -/
theorem c6_past_time_exclusion (date todayDate nowMinutes : Nat)
    (dayHours : WorkingHours) (existingBookings : List Booking)
    (settings : BookingSettings) :
    (date = todayDate → ∀ m, m ≤ nowMinutes →
        m ∉ slotMinutes date dayHours existingBookings settings todayDate nowMinutes)
    ∧ (date ≠ todayDate → ∀ m,
        m ∈ slotMinutes date dayHours existingBookings settings todayDate nowMinutes ↔
          m ∈ slotCandidates (parseTimeToMinutes dayHours.startTime)
              (parseTimeToMinutes dayHours.endTime)
          ∧ isSlotAvailable m (existingBookings.map (fun b => parseTimeToMinutes b.time))
              settings.timeBufferMinutes = true)
    ∧ (∀ workingHours : List WorkingHours,
        workingHours.find? (fun e => e.dayOfWeek == getDayOfWeek date) = some dayHours →
        dayHours.isWorkingDay = true →
        getTimeSlots date workingHours false existingBookings settings todayDate nowMinutes =
          (slotMinutes date dayHours existingBookings settings todayDate nowMinutes).map
            formatSlot) := by
  refine ⟨?_, ?_, ?_⟩
  · intro heq m hm
    have hbeq : (date == todayDate) = true := by simpa using heq
    simp only [slotMinutes, hbeq, if_true, mem_availableMinutes, not_and]
    intro _ hpast
    exact absurd (hpast trivial) (by omega)
  · intro hne m
    have hbeq : (date == todayDate) = false := by simpa using hne
    simp [slotMinutes, hbeq, mem_availableMinutes]
  · intro workingHours hfind hw
    simp [getTimeSlots, hfind, hw]

theorem c6_past_time_exclusion_witness :
    540 ∉ slotMinutes 0 ⟨.sunday, "09:00", "17:00", true⟩ [] ⟨10, 60⟩ 0 600 :=
  (c6_past_time_exclusion 0 0 600 ⟨.sunday, "09:00", "17:00", true⟩ [] ⟨10, 60⟩).1
    rfl 540 (by decide)

theorem c1_slot_generation_witness :
    getTimeSlots 1 [⟨getDayOfWeek 1, "09:00", "17:00", true⟩] false [] ⟨10, 0⟩ 0 0 =
      ["09:00", "09:30", "10:00", "10:30", "11:00", "11:30", "12:00", "12:30",
       "13:00", "13:30", "14:00", "14:30", "15:00", "15:30", "16:00", "16:30"] :=
  (c1_slot_generation 1 0 0 (by decide)).1

theorem c2_buffer_filtering_witness :
    getTimeSlots 1 [⟨getDayOfWeek 1, "09:00", "17:00", true⟩] false
        [⟨1, "12:00", "pending"⟩] ⟨10, 60⟩ 0 0 =
      ["09:00", "09:30", "10:00", "10:30", "11:00",
       "13:00", "13:30", "14:00", "14:30", "15:00", "15:30", "16:00", "16:30"] :=
  (c2_buffer_filtering 1 0 0 (by decide)).2.2.2.2.2

/-- Claim C7: the availability computation is a deterministic pure function
of its explicit inputs — the date, the working-hours template, the off-duty
periods, the policy, the bookings, and the explicitly passed current date
and time of day; two invocations with identical inputs yield identical
outputs, and no other input exists for the computation to read. -/
theorem c7_determinism (date todayDate nowMinutes : Nat)
    (workingHours : List WorkingHours) (offDutyPeriods : List OffDutyPeriod)
    (settings : BookingSettings) (allBookings : List Booking) (limitFlag : Bool)
    (existingBookings : List Booking) :
    computeAvailability date workingHours offDutyPeriods settings allBookings
        todayDate nowMinutes =
      computeAvailability date workingHours offDutyPeriods settings allBookings
        todayDate nowMinutes
    ∧ getTimeSlots date workingHours limitFlag existingBookings settings
        todayDate nowMinutes =
      getTimeSlots date workingHours limitFlag existingBookings settings
        todayDate nowMinutes :=
  ⟨rfl, rfl⟩

/-- Claim C8 counterexample: the caller's filter keeps a booking whose
status is cancelled — a single cancelled booking on the date is returned by
the date filter and, with `maxBookingsPerDay = 1`, trips the daily-limit
block, so cancelled bookings are counted, contrary to the claim. -/
theorem c8_cancelled_counted_counterexample :
    (Booking.mk 5 "10:00" "cancelled").status = "cancelled"
    ∧ bookingsOnDate [Booking.mk 5 "10:00" "cancelled"] 5 =
        [Booking.mk 5 "10:00" "cancelled"]
    ∧ checkDateAvailability 5 [⟨.friday, "09:00", "17:00", true⟩] [] ⟨1, 60⟩
        [Booking.mk 5 "10:00" "cancelled"] =
      (some .dailyLimitReached, [Booking.mk 5 "10:00" "cancelled"]) := by
  decide

/-- Claim C8 amended: the caller filters the fetched bookings by calendar
date only — a booking enters the list used for the daily-cap comparison and
buffer filtering exactly when its date matches the selected date, with no
condition on its status, so cancelled bookings are counted too. -/
theorem c8_amended_date_only_filter (allBookings : List Booking) (date : Nat)
    (b : Booking) :
    b ∈ bookingsOnDate allBookings date ↔ b ∈ allBookings ∧ b.date = date := by
  simp [bookingsOnDate]

lemma insertOrdered_fst_of_success (entries : List WHPayloadEntry) :
    ∀ docs, (insertOrdered entries docs).2 = true →
      (insertOrdered entries docs).1 = docs ++ entries := by
  induction entries with
  | nil => intro docs _; simp [insertOrdered]
  | cons e rest ih =>
    intro docs h
    by_cases hd : docs.any (fun d => d.dayOfWeek == e.dayOfWeek) = true
    · rw [insertOrdered, if_pos hd] at h
      exact absurd h (by simp)
    · rw [insertOrdered, if_neg hd] at h ⊢
      rw [ih (docs ++ [e]) h]
      simp

/-- Claim C9 counterexample: two payloads that pass the controller's check
defeat the claimed all-or-nothing replacement. A payload of 7 schema-valid
entries whose first two share `dayOfWeek = "monday"` is accepted, wipes the
store, and hits the unique day-of-week index at the second insert: the call
fails with 500 and the store holds exactly the first entry — neither the
old template nor the supplied payload, an observable partial replacement.
A payload whose entries lack `endTime` also passes the controller check
(its `endTime` clause is constant-false), fails schema validation after
the wipe, and leaves the store empty. -/
theorem c9_partial_replacement_counterexample :
    updateAllWorkingHours
        [⟨some "sunday", some "10:00", some "16:00", some false⟩]
        [⟨some "monday", some "09:00", some "17:00", some true⟩,
         ⟨some "monday", some "10:00", some "18:00", some true⟩,
         ⟨some "tuesday", some "09:00", some "17:00", some true⟩,
         ⟨some "wednesday", some "09:00", some "17:00", some true⟩,
         ⟨some "thursday", some "09:00", some "17:00", some true⟩,
         ⟨some "friday", some "09:00", some "17:00", some true⟩,
         ⟨some "saturday", some "09:00", some "17:00", some true⟩] =
      ([⟨some "monday", some "09:00", some "17:00", some true⟩], 500)
    ∧ [(⟨some "monday", some "09:00", some "17:00", some true⟩ : WHPayloadEntry)] ≠
        [⟨some "sunday", some "10:00", some "16:00", some false⟩]
    ∧ [(⟨some "monday", some "09:00", some "17:00", some true⟩ : WHPayloadEntry)] ≠
        [⟨some "monday", some "09:00", some "17:00", some true⟩,
         ⟨some "monday", some "10:00", some "18:00", some true⟩,
         ⟨some "tuesday", some "09:00", some "17:00", some true⟩,
         ⟨some "wednesday", some "09:00", some "17:00", some true⟩,
         ⟨some "thursday", some "09:00", some "17:00", some true⟩,
         ⟨some "friday", some "09:00", some "17:00", some true⟩,
         ⟨some "saturday", some "09:00", some "17:00", some true⟩]
    ∧ updateAllWorkingHours
        [⟨some "sunday", some "10:00", some "16:00", some false⟩]
        [⟨some "monday", some "09:00", none, some true⟩,
         ⟨some "tuesday", some "09:00", none, some true⟩,
         ⟨some "wednesday", some "09:00", none, some true⟩,
         ⟨some "thursday", some "09:00", none, some true⟩,
         ⟨some "friday", some "09:00", none, some true⟩,
         ⟨some "saturday", some "09:00", none, some true⟩,
         ⟨some "sunday", some "09:00", none, some true⟩] = ([], 500) := by
  exact ⟨by decide, by decide, by decide, by decide⟩

/-- Claim C9 amended: the bulk working-hours update rejects with a 400
validation error any payload that is not an array of exactly 7 entries, or
one failing its per-entry field check (whose `endTime` clause is
constant-false), leaving the stored template unchanged; an accepted payload
first deletes every stored entry and then inserts the supplied entries in
order, so a call that returns 200 stores exactly the supplied entries — but
the replacement is not all-or-nothing: when an accepted entry fails schema
validation the store is left empty, and when the unique day-of-week index
rejects an entry the store is left holding only the prefix inserted before
the failure, so a partial replacement is observable on such failures. -/
theorem c9_bulk_update (stored payload : List WHPayloadEntry) :
    (payload.length ≠ 7 → updateAllWorkingHours stored payload = (stored, 400))
    ∧ (payload.any entryInvalid = true →
        updateAllWorkingHours stored payload = (stored, 400))
    ∧ ((updateAllWorkingHours stored payload).2 = 200 →
        updateAllWorkingHours stored payload = (payload, 200))
    ∧ (payload.length = 7 → payload.any entryInvalid = false →
        payload.all schemaValid = false →
        updateAllWorkingHours stored payload = ([], 500))
    ∧ (payload.length = 7 → payload.any entryInvalid = false →
        payload.all schemaValid = true →
        updateAllWorkingHours stored payload =
          ((insertOrdered payload []).1,
            if (insertOrdered payload []).2 then 200 else 500)) := by
  refine ⟨?_, ?_, ?_, ?_, ?_⟩
  · intro h7
    simp [updateAllWorkingHours, h7]
  · intro hv
    by_cases h7 : payload.length ≠ 7 <;> simp [updateAllWorkingHours, h7, hv]
  · intro hc
    by_cases h7 : payload.length = 7
    · by_cases hv : payload.any entryInvalid = true
      · simp [updateAllWorkingHours, h7, hv] at hc
      · by_cases hs : payload.all schemaValid = true
        · by_cases hins : (insertOrdered payload []).2 = true
          · have hfst := insertOrdered_fst_of_success payload [] hins
            simp only [List.nil_append] at hfst
            simp [updateAllWorkingHours, h7, hv, hs, hins, hfst]
          · simp [updateAllWorkingHours, h7, hv, hs, hins] at hc
        · simp [updateAllWorkingHours, h7, hv, hs] at hc
    · simp [updateAllWorkingHours, h7] at hc
  · intro h7 hv hs
    simp [updateAllWorkingHours, h7, hv, hs]
  · intro h7 hv hs
    by_cases hins : (insertOrdered payload []).2 = true <;>
      simp [updateAllWorkingHours, h7, hv, hs, hins]

theorem c9_bulk_update_witness :
    updateAllWorkingHours [] [] = ([], 400) :=
  (c9_bulk_update [] []).1 (by decide)

/-- Claim C10: a working-day entry whose start time is at or after its end
time yields no loop iterations, so `getTimeSlots` returns the empty list —
the malformed entry behaves as a closed day and the computation stays
total. -/
theorem c10_degenerate_hours (date todayDate nowMinutes : Nat)
    (workingHours : List WorkingHours) (existingBookings : List Booking)
    (settings : BookingSettings) (dayHours : WorkingHours)
    (hfind : workingHours.find? (fun e => e.dayOfWeek == getDayOfWeek date) = some dayHours)
    (hwork : dayHours.isWorkingDay = true)
    (hrev : parseTimeToMinutes dayHours.endTime ≤ parseTimeToMinutes dayHours.startTime) :
    getTimeSlots date workingHours false existingBookings settings todayDate nowMinutes = [] := by
  have hz : (parseTimeToMinutes dayHours.endTime -
      parseTimeToMinutes dayHours.startTime + 29) / 30 = 0 := by omega
  simp [getTimeSlots, hfind, hwork, slotMinutes, availableMinutes, slotCandidates, hz]

theorem c10_degenerate_hours_witness :
    getTimeSlots 1 [⟨.monday, "17:00", "09:00", true⟩] false [] ⟨10, 60⟩ 0 0 = [] :=
  c10_degenerate_hours 1 0 0 [⟨.monday, "17:00", "09:00", true⟩] [] ⟨10, 60⟩
    ⟨.monday, "17:00", "09:00", true⟩ (by decide) (by decide) (by decide)
